import Mathlib

/-!
Shallow embedding of the budget-tracking and category-suggestion core of the
`personify` personal-finance tracker (`backend/finance/services.py`:
`BudgetTrackingService` and `CategorySuggestionService`).

Modelling conventions:
* Monetary amounts and percentages are `ℚ`.  The source computes percentages
  through Python `float` after `Decimal` division; the specification's design
  notes direct a decimal-safe reimplementation, so the embedding uses exact
  rational arithmetic throughout.
* `round(x, 2)` is modelled as round-half-up to two decimals (`round2`); the
  theorems below never depend on exact-half inputs, where Python's
  half-to-even on binary floats could differ.
* Django querysets are modelled as explicit lists passed to each function;
  every filter/aggregate is translated to `List.filter`/sums over those lists.
* Alert `message` strings are display-only number formatting and are omitted
  from the alert record.
-/

namespace Personify

/-- Transaction type: the `TRANSACTION_TYPES` choices of the `Transaction`
model (`income` / `expense`). -/
inductive TransactionType where
  | income
  | expense
deriving DecidableEq, Repr

/-- A calendar date (`datetime.date`): year, month, day. -/
structure Date where
  year : Nat
  month : Nat
  day : Nat
deriving DecidableEq, Repr

/-- Lexicographic order on dates, as Python compares `datetime.date`. -/
def dateLeB (a b : Date) : Bool :=
  a.year < b.year ||
    (a.year == b.year &&
      (a.month < b.month || (a.month == b.month && a.day ≤ b.day)))

/-- Gregorian leap-year rule used by Python's `calendar` module. -/
def isLeapYear (y : Nat) : Bool :=
  (y % 4 == 0 && y % 100 != 0) || y % 400 == 0

/-- `calendar.monthrange(y, m)[1]`: number of days of month `m` of year `y`. -/
def daysInMonth (y m : Nat) : Nat :=
  if m == 2 then (if isLeapYear y then 29 else 28)
  else if m == 4 || m == 6 || m == 9 || m == 11 then 30
  else 31

/-- `Category` model row: id, owning user, name, free-text description,
hex color. -/
structure Category where
  id : Nat
  owner : Nat
  name : String
  descr : String
  color : String
deriving DecidableEq, Repr

/-- `Transaction` model row.  `category` carries the joined `Category` row
(`None` when uncategorized). -/
structure Transaction where
  id : Nat
  owner : Nat
  amount : ℚ
  description : String
  category : Option Category
  transaction_type : TransactionType
  date : Date
deriving DecidableEq, Repr

/-- `Budget` model row.  `month` is normalized to the first day of the month;
`(owner, category, month)` is unique. -/
structure Budget where
  id : Nat
  owner : Nat
  category : Category
  amount : ℚ
  month : Date
deriving DecidableEq, Repr

/-- `date(year, month, 1)` — the first day of the month of `d`. -/
def monthStart (d : Date) : Date := ⟨d.year, d.month, 1⟩

/-- `date(year, month, monthrange(year, month)[1])` — the last day of the
month of `d`. -/
def monthEnd (d : Date) : Date := ⟨d.year, d.month, daysInMonth d.year d.month⟩

/-- The queryset filter of `calculate_budget_status`:
`user=budget.user, category=budget.category, transaction_type='expense',
date__gte=month_start, date__lte=month_end`. -/
def txnCountsB (b : Budget) (t : Transaction) : Bool :=
  t.owner == b.owner &&
  (match t.category with
   | some c => c.id == b.category.id
   | none => false) &&
  decide (t.transaction_type = TransactionType.expense) &&
  dateLeB (monthStart b.month) t.date &&
  dateLeB t.date (monthEnd b.month)

/-- `aggregate(total=Sum('amount'))['total'] or Decimal('0.00')`: the spend
aggregate of a budget over a transaction table. -/
def spentAmount (txns : List Transaction) (b : Budget) : ℚ :=
  ((txns.filter (txnCountsB b)).map Transaction.amount).sum

/-- `float((spent / budget.amount) * 100) if budget.amount > 0 else 0.0`,
in exact rational arithmetic. -/
def percentageRaw (spent amount : ℚ) : ℚ :=
  if 0 < amount then spent / amount * 100 else 0

/-- Floor of a rational as an integer (`num.fdiv den` on the reduced
representation), kept kernel-computable. -/
def ratFloorZ (x : ℚ) : ℤ := x.num.fdiv x.den

/-- Python `round(x, 2)` modelled as round-half-up to two decimal places. -/
def round2 (x : ℚ) : ℚ := ((ratFloorZ (x * 100 + 1 / 2) : ℤ) : ℚ) / 100

/-- The `status` field values of a budget status record. -/
inductive BudgetStatusKind where
  | over_budget
  | near_limit
  | under_budget
deriving DecidableEq, Repr

/-- The `alert_level` field values of a budget status record. -/
inductive AlertLevel where
  | danger
  | warning
  | none_
deriving DecidableEq, Repr

/-- The status tiering of `calculate_budget_status`:
`>= 100 → over_budget`, `>= 80 → near_limit`, else `under_budget`. -/
def statusOf (p : ℚ) : BudgetStatusKind :=
  if 100 ≤ p then .over_budget
  else if 80 ≤ p then .near_limit
  else .under_budget

/-- The alert tiering of `calculate_budget_status`:
`>= 100 → danger`, `>= 80 → warning`, else `none`. -/
def alertOf (p : ℚ) : AlertLevel :=
  if 100 ≤ p then .danger
  else if 80 ≤ p then .warning
  else .none_

/-- The record returned by `calculate_budget_status`. -/
structure BudgetStatus where
  budget_id : Nat
  category_id : Nat
  category_name : String
  category_color : String
  budget_amount : ℚ
  spent_amount : ℚ
  remaining_amount : ℚ
  percentage_used : ℚ
  status : BudgetStatusKind
  alert_level : AlertLevel
  month : Date
deriving DecidableEq, Repr

/-- `BudgetTrackingService.calculate_budget_status`, over an explicit
transaction table. -/
def calculate_budget_status (txns : List Transaction) (b : Budget) :
    BudgetStatus :=
  let spent := spentAmount txns b
  let remaining := b.amount - spent
  let p := percentageRaw spent b.amount
  { budget_id := b.id
    category_id := b.category.id
    category_name := b.category.name
    category_color := b.category.color
    budget_amount := b.amount
    spent_amount := spent
    remaining_amount := remaining
    percentage_used := round2 p
    status := statusOf p
    alert_level := alertOf p
    month := b.month }

/-- The exact (pre-rounding) percentage a budget status is tiered on. -/
def exactPercentage (txns : List Transaction) (b : Budget) : ℚ :=
  percentageRaw (spentAmount txns b) b.amount

/-- Fixture category used by concrete test inputs. -/
def exCategory : Category := ⟨2, 1, "Misc", "", "#ffffff"⟩

/-- Fixture budget of amount 10000 for March 2024. -/
def exBudget : Budget := ⟨10, 1, exCategory, 10000, ⟨2024, 3, 1⟩⟩

/-- Fixture expense of 9999.90 inside March 2024. -/
def exTxn : Transaction :=
  ⟨5, 1, 99999 / 10, "big expense", some exCategory, .expense, ⟨2024, 3, 15⟩⟩

/-- Fixture budget of amount 500 for March 2024. -/
def exBudget500 : Budget := ⟨11, 1, exCategory, 500, ⟨2024, 3, 1⟩⟩

/-- Fixture expense of 150.00 inside March 2024. -/
def exTxn150 : Transaction :=
  ⟨6, 1, 150, "mid expense", some exCategory, .expense, ⟨2024, 3, 10⟩⟩

/-- Fixture budget of amount 0 for March 2024. -/
def exBudgetZero : Budget := ⟨12, 1, exCategory, 0, ⟨2024, 3, 1⟩⟩

/-- The spend predicate as the specification words it: an expense-type
transaction of the budget's owner, in the budget's category, dated within
the inclusive range from the first to the last calendar day of the budget's
month.  Stated independently of `txnCountsB` to compare against the code. -/
def countsTowardBudgetSpec (b : Budget) (t : Transaction) : Bool :=
  decide (t.transaction_type = TransactionType.expense) &&
  t.owner == b.owner &&
  (match t.category with
   | some c => c.id == b.category.id
   | none => false) &&
  dateLeB (monthStart b.month) t.date &&
  dateLeB t.date (monthEnd b.month)

/-- Fixture income transaction of 200.00 inside March 2024. -/
def exTxnIncome : Transaction :=
  ⟨7, 1, 200, "salary", some exCategory, .income, ⟨2024, 3, 5⟩⟩

/-- Fixture expense of 75.00 dated April 2024 (outside March). -/
def exTxnApril : Transaction :=
  ⟨8, 1, 75, "april expense", some exCategory, .expense, ⟨2024, 4, 2⟩⟩

/-- A hypothetical (not yet persisted) transaction passed to
`check_transaction_impact_on_budget`: a payload whose fields may be
missing.  A present amount equal to 0 is falsy in the source and is treated
as missing. -/
structure TxnCandidate where
  transaction_type : Option TransactionType
  category : Option Nat
  date : Option Date
  amount : Option ℚ
deriving DecidableEq, Repr

/-- The result of `check_transaction_impact_on_budget`: either one of the
early no-impact returns (carrying only its message — no simulated fields
are computed), or the full impact record. -/
inductive ImpactResult where
  | noImpact (message : String)
  | impact (budget_id : Nat) (category_name : String)
      (old_spent new_spent old_remaining new_remaining : ℚ)
      (old_percentage new_percentage : ℚ) (status_changed : Bool)
      (old_alert_level new_alert_level : AlertLevel) (budget_amount : ℚ)
deriving DecidableEq, Repr

/-- The `has_impact` key of the returned dict. -/
def ImpactResult.has_impact : ImpactResult → Bool
  | .noImpact _ => false
  | .impact _ _ _ _ _ _ _ _ _ _ _ _ => true

/-- `Budget.objects.get(user=..., category=..., month=...)`: the unique
budget row for `(owner, category, month)`, `none` when `DoesNotExist`.
`(owner, category, month)` is unique, so `find?` returns the row. -/
def findBudget (budgets : List Budget) (user : Nat) (catId : Nat)
    (m : Date) : Option Budget :=
  budgets.find? (fun b => b.owner == user && b.category.id == catId &&
    decide (b.month = m))

/-- `BudgetTrackingService.check_transaction_impact_on_budget`, over explicit
budget and transaction tables. -/
def check_transaction_impact_on_budget (budgets : List Budget)
    (txns : List Transaction) (user : Nat) (t : TxnCandidate) :
    ImpactResult :=
  if t.transaction_type ≠ some TransactionType.expense then
    .noImpact "Transaction is not an expense"
  else
    match t.category, t.date, t.amount with
    | some c, some d, some a =>
      if a = 0 then .noImpact "Missing required transaction data"
      else
        match findBudget budgets user c (monthStart d) with
        | none => .noImpact "No budget found for this category and month"
        | some b =>
          let cur := calculate_budget_status txns b
          let new_spent := cur.spent_amount + a
          let new_remaining := b.amount - new_spent
          let new_p := percentageRaw new_spent b.amount
          let new_alert := alertOf new_p
          .impact b.id b.category.name cur.spent_amount new_spent
            cur.remaining_amount new_remaining cur.percentage_used
            (round2 new_p) (decide (cur.alert_level ≠ new_alert))
            cur.alert_level new_alert b.amount
    | _, _, _ => .noImpact "Missing required transaction data"

/-- The `alert_type` values of a budget alert. -/
inductive AlertType where
  | limit_exceeded
  | approaching_limit
deriving DecidableEq, Repr

/-- An alert record emitted by `get_budget_alerts`.  The `message` field of
the source is display-only string formatting and is omitted. -/
structure BudgetAlert where
  budget_id : Nat
  category_name : String
  budget_amount : ℚ
  spent_amount : ℚ
  percentage_used : ℚ
  alert_type : AlertType
  month : Date
deriving DecidableEq, Repr

/-- The alert record built for one budget inside `get_budget_alerts`. -/
def mkBudgetAlert (txns : List Transaction) (b : Budget) : BudgetAlert :=
  let st := calculate_budget_status txns b
  { budget_id := b.id
    category_name := st.category_name
    budget_amount := st.budget_amount
    spent_amount := st.spent_amount
    percentage_used := st.percentage_used
    alert_type := if st.status = BudgetStatusKind.over_budget then
      .limit_exceeded else .approaching_limit
    month := b.month }

/-- `BudgetTrackingService.get_budget_alerts`: iterate the owner's budgets
of the month and emit an alert for each whose alert level is warning or
danger. -/
def get_budget_alerts (budgets : List Budget) (txns : List Transaction)
    (user : Nat) (month : Date) : List BudgetAlert :=
  (budgets.filter (fun b => b.owner == user && decide (b.month = month))).filterMap
    (fun b =>
      let st := calculate_budget_status txns b
      if st.alert_level = AlertLevel.warning ∨
          st.alert_level = AlertLevel.danger then
        some (mkBudgetAlert txns b)
      else none)

/-- Fixture candidate: an expense of 450.00 dated March 2024 in the fixture
category. -/
def exCandidate : TxnCandidate :=
  ⟨some .expense, some exCategory.id, some ⟨2024, 3, 15⟩, some 450⟩

/-- Fixture candidate: an income of 100.00, which must have no budget
impact. -/
def exCandIncome : TxnCandidate :=
  ⟨some .income, some exCategory.id, some ⟨2024, 3, 15⟩, some 100⟩

/-! String utilities mirroring the Python string operations used by
`CategorySuggestionService`.  All ASCII inputs; `str.lower` is
character-wise `Char.toLower`, `str.split()` drops empty pieces, `in` is
contiguous-substring containment, and `re.findall(r'\w+', s)` yields the
maximal runs of word characters (ASCII alphanumerics and underscore). -/

/-- Python `str.lower()` (character-wise). -/
def strLower (s : String) : String := ⟨s.data.map Char.toLower⟩

/-- `needle` is a prefix of `hay` (over char lists). -/
def lPre : List Char → List Char → Bool
  | [], _ => true
  | _ :: _, [] => false
  | a :: as, b :: bs => a == b && lPre as bs

/-- `needle` occurs contiguously inside `hay` (Python `needle in hay`). -/
def lSub (needle : List Char) : List Char → Bool
  | [] => lPre needle []
  | c :: t => lPre needle (c :: t) || lSub needle t

/-- Python `needle in hay` on strings. -/
def strHas (hay needle : String) : Bool := lSub needle.data hay.data

/-- Split a char list at separator chars (those satisfying `p`), dropping
empty pieces, with `acc` the reversed current piece. -/
def splitDropAux (p : Char → Bool) : List Char → List Char →
    List (List Char)
  | acc, [] => if acc.isEmpty then [] else [acc.reverse]
  | acc, c :: rest =>
    if p c then
      if acc.isEmpty then splitDropAux p [] rest
      else acc.reverse :: splitDropAux p [] rest
    else splitDropAux p (c :: acc) rest

/-- Python `s.split()`: maximal runs of non-whitespace characters. -/
def pyWords (s : String) : List (List Char) :=
  splitDropAux Char.isWhitespace [] s.data

/-- A regex `\w` word character (ASCII). -/
def isWordChar (c : Char) : Bool := c.isAlphanum || c == '_'

/-- `re.findall(r'\w+', s)`: maximal runs of word characters. -/
def wordRuns (s : String) : List (List Char) :=
  splitDropAux (fun c => !(isWordChar c)) [] s.data

/-- The static `CATEGORY_KEYWORDS` taxonomy table, in source order. -/
def CATEGORY_KEYWORDS : List (String × List String) :=
  [("groceries",
    ["grocery", "groceries", "supermarket", "walmart", "target", "costco",
     "safeway", "kroger", "whole foods", "trader joe", "market", "store",
     "food", "produce", "milk", "bread", "shopping"]),
   ("transportation",
    ["uber", "lyft", "taxi", "gas", "fuel", "parking", "metro", "bus",
     "train", "subway", "transport", "commute", "car", "vehicle",
     "station", "fare", "toll", "ride", "bus ticket", "train ticket"]),
   ("dining",
    ["restaurant", "cafe", "coffee", "starbucks", "mcdonald", "pizza",
     "burger", "lunch", "dinner", "breakfast", "takeout", "delivery",
     "dining", "eat", "food truck", "bar", "pub"]),
   ("entertainment",
    ["movie", "cinema", "theater", "netflix", "spotify", "game", "gaming",
     "concert", "show", "movie ticket", "entertainment", "fun", "park",
     "museum", "zoo", "beach", "recreation"]),
   ("shopping",
    ["amazon", "ebay", "online", "purchase", "buy", "shop", "mall",
     "store", "retail", "clothing", "shoes", "electronics"]),
   ("utilities",
    ["electric", "electricity", "water", "gas bill", "internet",
     "phone", "cable", "utility", "bill", "service"]),
   ("healthcare",
    ["doctor", "hospital", "pharmacy", "medical", "health", "dentist",
     "clinic", "medicine", "prescription", "insurance"])]

/-- Whether a category name matches a taxonomy class: direct substring, or
one of the per-class related-word checks. -/
def categoryMatchesType (ctype : String) (nameLower : String) : Bool :=
  strHas nameLower ctype ||
  (ctype == "transportation" &&
    ["transport", "travel", "commute"].any (fun w => strHas nameLower w)) ||
  (ctype == "dining" &&
    ["dining", "restaurant", "food"].any (fun w => strHas nameLower w)) ||
  (ctype == "groceries" &&
    ["grocery", "groceries", "food"].any (fun w => strHas nameLower w)) ||
  (ctype == "entertainment" &&
    ["entertainment", "fun", "leisure"].any (fun w => strHas nameLower w))

/-- One keyword test against the description: exact-phrase containment for
multi-word keywords, whole-word (`\b`-bounded) match for single words. -/
def keywordHit (descLower : String) (kw : String) : Bool :=
  if strHas kw " " then strHas descLower kw
  else (wordRuns descLower).contains kw.data

/-- Number of taxonomy keywords of one class matching the description. -/
def keywordMatchCount (kws : List String) (descLower : String) : Nat :=
  kws.countP (keywordHit descLower)

/-- `CategorySuggestionService._calculate_category_score`: name substring
(+1.0), taxonomy classes (`0.6 + 0.2 × matches`, capped at 1.0 as it
accumulates), category-name words of length > 2 (+0.5 each), category
description words of length > 3 (+0.3 each), final cap at 1.0. -/
def calculate_category_score (c : Category) (descLower : String) : ℚ :=
  let nameLower := strLower c.name
  let s0 : ℚ := if strHas descLower nameLower then 1 else 0
  let s1 := CATEGORY_KEYWORDS.foldl (fun sc p =>
    if categoryMatchesType p.1 nameLower then
      let k := keywordMatchCount p.2 descLower
      if 0 < k then min (sc + (6 / 10 + (k : ℚ) * (2 / 10))) 1 else sc
    else sc) s0
  let s2 := (pyWords nameLower).foldl (fun sc w =>
    if decide (2 < w.length) && lSub w descLower.data then sc + 5 / 10
    else sc) s1
  let s3 := if c.descr = "" then s2
    else (pyWords (strLower c.descr)).foldl (fun sc w =>
      if decide (3 < w.length) && lSub w descLower.data then sc + 3 / 10
      else sc) s2
  min s3 1

/-- `CategorySuggestionService._count_keyword_matches`: total taxonomy
keyword matches over all classes the category name matches. -/
def countKeywordMatches (c : Category) (descLower : String) : Nat :=
  CATEGORY_KEYWORDS.foldl (fun n p =>
    if categoryMatchesType p.1 (strLower c.name) then
      n + keywordMatchCount p.2 descLower
    else n) 0

/-- The tie-break loop of `suggest_category`: keep the first tied category
with a strictly greater keyword-match count, `none` when every count is 0. -/
def pickTieBreakAux (descLower : String) : Option Category → Nat →
    List Category → Option Category
  | best, _, [] => best
  | best, bestCount, c :: rest =>
    let k := countKeywordMatches c descLower
    if bestCount < k then pickTieBreakAux descLower (some c) k rest
    else pickTieBreakAux descLower best bestCount rest

/-- The body of `suggest_category` after the empty-description guard,
operating on the lowercased description. -/
def suggestCore (cats : List Category) (dl : String) : Option Category :=
  let scored := (cats.map (fun c => (c, calculate_category_score c dl))).filter
    (fun p => decide (0 < p.2))
  match scored with
  | [] => none
  | _ :: _ =>
    let maxScore := (scored.map Prod.snd).foldl max 0
    let tied := scored.filter (fun p => decide (p.2 = maxScore))
    match tied with
    | [p] => some p.1
    | _ =>
      match pickTieBreakAux dl none 0 (tied.map Prod.fst) with
      | some c => some c
      | none => (tied.map Prod.fst).head?

/-- `CategorySuggestionService.suggest_category`: `None` on an empty
description, else keyword scoring over the user's categories. -/
def suggest_category (cats : List Category) (description : String) :
    Option Category :=
  if description.data.isEmpty then none
  else suggestCore cats (strLower description)

/-- `CategorySuggestionService._calculate_description_similarity`: word-set
Jaccard similarity over lowercase whitespace-split word sets (punctuation
retained inside tokens). -/
def descSimilarity (d1 d2 : String) : ℚ :=
  let w1 := (pyWords (strLower d1)).toFinset
  let w2 := (pyWords (strLower d2)).toFinset
  if w1 = ∅ ∨ w2 = ∅ then 0
  else if w1 ∪ w2 = ∅ then 0
  else ((w1 ∩ w2).card : ℚ) / ((w1 ∪ w2).card : ℚ)

/-- The similarity as the claim words it: word sets extracted with the
word-character regex (punctuation ignored).  Stated independently of
`descSimilarity` to compare against the code. -/
def descSimilaritySpec (d1 d2 : String) : ℚ :=
  let w1 := (wordRuns (strLower d1)).toFinset
  let w2 := (wordRuns (strLower d2)).toFinset
  if w1 = ∅ ∨ w2 = ∅ then 0
  else if w1 ∪ w2 = ∅ then 0
  else ((w1 ∩ w2).card : ℚ) / ((w1 ∪ w2).card : ℚ)

/-- `Counter[category] += sim`: add to the category's entry, keyed by row
id, preserving first-insertion order. -/
def addScore : List (Category × ℚ) → Category → ℚ → List (Category × ℚ)
  | [], c, s => [(c, s)]
  | (c', s') :: rest, c, s =>
    if c'.id = c.id then (c', s' + s) :: rest
    else (c', s') :: addScore rest c s

/-- One iteration of the history loop: score the historical transaction's
category when the similarity clears the 0.3 threshold. -/
def historyStep (dl : String) (acc : List (Category × ℚ))
    (t : Transaction) : List (Category × ℚ) :=
  match t.category with
  | none => acc
  | some c =>
    let sim := descSimilarity dl t.description
    if 3 / 10 < sim then addScore acc c sim else acc

/-- The spec-worded history loop iteration, with the regex-based
similarity. -/
def historyStepSpec (dl : String) (acc : List (Category × ℚ))
    (t : Transaction) : List (Category × ℚ) :=
  match t.category with
  | none => acc
  | some c =>
    let sim := descSimilaritySpec dl t.description
    if 3 / 10 < sim then addScore acc c sim else acc

/-- `Counter.most_common(1)[0]`: the first entry of maximal accumulated
score (stable descending sort keeps first-insertion order on ties). -/
def argmaxAux : (Category × ℚ) → List (Category × ℚ) → (Category × ℚ)
  | best, [] => best
  | best, p :: rest =>
    if best.2 < p.2 then argmaxAux p rest else argmaxAux best rest

/-- The most-common category of a score table, `none` when empty. -/
def argmaxFirst : List (Category × ℚ) → Option Category
  | [] => none
  | p :: rest => some (argmaxAux p rest).1

/-- `CategorySuggestionService.suggest_category_with_history`: keyword
suggestion first, then similarity scoring over the owner's categorized
historical transactions. -/
def suggest_category_with_history (cats : List Category)
    (txns : List Transaction) (user : Nat) (description : String) :
    Option Category :=
  match suggest_category cats description with
  | some c => some c
  | none =>
    let hist := txns.filter (fun t => t.owner == user && t.category.isSome)
    argmaxFirst (hist.foldl (historyStep (strLower description)) [])

/-- The history suggester as the claim words it: identical except that the
similarity extracts words with the word-character regex. -/
def suggestWithHistorySpec (cats : List Category)
    (txns : List Transaction) (user : Nat) (description : String) :
    Option Category :=
  match suggest_category cats description with
  | some c => some c
  | none =>
    let hist := txns.filter (fun t => t.owner == user && t.category.isSome)
    argmaxFirst (hist.foldl (historyStepSpec (strLower description)) [])

/-- Fixture categorized historical transaction described "coffee". -/
def exTxnCoffee : Transaction :=
  ⟨9, 1, 5, "coffee", some exCategory, .expense, ⟨2024, 2, 10⟩⟩

/-- Fixture category "Groceries" with a free-text description. -/
def exCatGroceries : Category :=
  ⟨3, 1, "Groceries", "Food and household items", "#00ff00"⟩

lemma ratFloorZ_eq_floor (x : ℚ) : ratFloorZ x = ⌊x⌋ := by
  rw [Rat.floor_def, ratFloorZ, Int.fdiv_eq_ediv _ (by positivity)]

lemma ratFloorZ_eq (x : ℚ) (z : ℤ) (h1 : (z : ℚ) ≤ x) (h2 : x < z + 1) :
    ratFloorZ x = z := by
  rw [ratFloorZ_eq_floor, Int.floor_eq_iff]
  exact ⟨h1, h2⟩

lemma round2_eq (x : ℚ) (z : ℤ) (h1 : (z : ℚ) ≤ x * 100 + 1 / 2)
    (h2 : x * 100 + 1 / 2 < z + 1) : round2 x = (z : ℚ) / 100 := by
  rw [round2, ratFloorZ_eq _ z h1 h2]

lemma spentAmount_single (t : Transaction) (b : Budget)
    (h : txnCountsB b t = true) : spentAmount [t] b = t.amount := by
  simp [spentAmount, List.filter_cons, h]

/-- C1 (counterexample): on a 10000.00 budget with 9999.90 spent the exact
percentage is 99.999, so the status is `near_limit`, yet the record's
`percentage_used` field is rounded to 100.00: the claimed equivalence
`status == over_budget ⇔ percentage_used ≥ 100` fails on the returned
record. -/
theorem C1_rounded_field_breaks_tier_iff :
    100 ≤ (calculate_budget_status [exTxn] exBudget).percentage_used ∧
    (calculate_budget_status [exTxn] exBudget).status ≠
      BudgetStatusKind.over_budget := by
  have hspent : spentAmount [exTxn] exBudget = 99999 / 10 :=
    spentAmount_single _ _ (by decide)
  have hp : percentageRaw (spentAmount [exTxn] exBudget) exBudget.amount =
      99999 / 1000 := by
    rw [hspent]
    show percentageRaw (99999 / 10) 10000 = 99999 / 1000
    rw [percentageRaw, if_pos (by norm_num)]
    norm_num
  constructor
  · show 100 ≤ round2 (percentageRaw (spentAmount [exTxn] exBudget)
      exBudget.amount)
    rw [hp, round2_eq _ 10000 (by norm_num) (by norm_num)]
    norm_num
  · show statusOf (percentageRaw (spentAmount [exTxn] exBudget)
      exBudget.amount) ≠ BudgetStatusKind.over_budget
    rw [hp, statusOf, if_neg (by norm_num), if_pos (by norm_num)]
    decide

/-- C1 (amended): for every budget with positive amount, the status returned
by `calculate_budget_status` is tiered on the exact pre-rounding percentage
`spent / amount * 100`: `over_budget ⇔ p ≥ 100`, `near_limit ⇔ 80 ≤ p < 100`,
`under_budget ⇔ p < 80`, an exhaustive and exclusive partition. -/
theorem C1_status_tiers_exact_percentage (txns : List Transaction)
    (b : Budget) (hpos : 0 < b.amount) :
    ((calculate_budget_status txns b).status = BudgetStatusKind.over_budget ↔
      100 ≤ exactPercentage txns b) ∧
    ((calculate_budget_status txns b).status = BudgetStatusKind.near_limit ↔
      80 ≤ exactPercentage txns b ∧ exactPercentage txns b < 100) ∧
    ((calculate_budget_status txns b).status = BudgetStatusKind.under_budget ↔
      exactPercentage txns b < 80) := by
  have hst : (calculate_budget_status txns b).status =
      statusOf (exactPercentage txns b) := rfl
  rw [hst]
  unfold statusOf
  split_ifs with h1 h2 <;>
    refine ⟨?_, ?_, ?_⟩ <;> simp_all <;> linarith

/-- C1 witness: the amended tiering theorem applied to a concrete 500.00
budget with 150.00 spent (30% used, `under_budget`). -/
theorem C1_status_tiers_exact_percentage_witness :
    (0 : ℚ) < exBudget500.amount ∧
    ((calculate_budget_status [exTxn150] exBudget500).status =
        BudgetStatusKind.under_budget ↔
      exactPercentage [exTxn150] exBudget500 < 80) :=
  ⟨by norm_num [exBudget500],
   (C1_status_tiers_exact_percentage [exTxn150] exBudget500
      (by norm_num [exBudget500])).2.2⟩

lemma countsTowardBudgetSpec_eq_txnCountsB (b : Budget) (t : Transaction) :
    countsTowardBudgetSpec b t = txnCountsB b t := by
  rcases t with ⟨id, owner, amount, desc, cat, ty, date⟩
  unfold countsTowardBudgetSpec txnCountsB
  cases cat <;> simp <;>
    cases owner == b.owner <;>
    cases decide (ty = TransactionType.expense) <;>
    cases dateLeB (monthStart b.month) date <;>
    cases dateLeB date (monthEnd b.month) <;>
    simp

lemma txnCountsB_income (b : Budget) (t : Transaction)
    (h : t.transaction_type = TransactionType.income) :
    txnCountsB b t = false := by
  simp [txnCountsB, h]

lemma txnCountsB_out_of_month (b : Budget) (t : Transaction)
    (h : (dateLeB (monthStart b.month) t.date &&
      dateLeB t.date (monthEnd b.month)) = false) :
    txnCountsB b t = false := by
  rcases Bool.and_eq_false_iff.mp h with h1 | h1 <;> simp [txnCountsB, h1]

/-- C2: the spend aggregate of `calculate_budget_status` sums exactly the
owner's expense transactions in the budget's category dated within the
budget's calendar month; adding an income transaction or a transaction
outside the month range never changes it; the month's last day respects
leap years (Feb 2024 runs to the 29th, Feb 2023 to the 28th). -/
theorem C2_spent_is_monthly_category_expense_sum (txns : List Transaction)
    (b : Budget) :
    spentAmount txns b =
      ((txns.filter (countsTowardBudgetSpec b)).map Transaction.amount).sum ∧
    (∀ t : Transaction, t.transaction_type = TransactionType.income →
      spentAmount (t :: txns) b = spentAmount txns b) ∧
    (∀ t : Transaction,
      (dateLeB (monthStart b.month) t.date &&
        dateLeB t.date (monthEnd b.month)) = false →
      spentAmount (t :: txns) b = spentAmount txns b) ∧
    monthEnd ⟨2024, 2, 1⟩ = ⟨2024, 2, 29⟩ ∧
    monthEnd ⟨2023, 2, 1⟩ = ⟨2023, 2, 28⟩ := by
  refine ⟨?_, ?_, ?_, by decide, by decide⟩
  · rw [spentAmount,
      List.filter_congr (fun t _ => countsTowardBudgetSpec_eq_txnCountsB b t)]
  · intro t ht
    simp [spentAmount, List.filter_cons, txnCountsB_income b t ht]
  · intro t ht
    simp [spentAmount, List.filter_cons, txnCountsB_out_of_month b t ht]

/-- C2 witness: on the concrete March-2024 fixtures, prepending the income
transaction or the April expense leaves the spend aggregate unchanged. -/
theorem C2_spent_is_monthly_category_expense_sum_witness :
    spentAmount [exTxnIncome, exTxn150] exBudget500 =
      spentAmount [exTxn150] exBudget500 ∧
    spentAmount [exTxnApril, exTxn150] exBudget500 =
      spentAmount [exTxn150] exBudget500 :=
  ⟨(C2_spent_is_monthly_category_expense_sum [exTxn150] exBudget500).2.1
      exTxnIncome rfl,
   (C2_spent_is_monthly_category_expense_sum [exTxn150] exBudget500).2.2.1
      exTxnApril (by decide)⟩

/-- C3: for every budget and every transaction table,
`remaining_amount + spent_amount = budget_amount` holds exactly in the record
returned by `calculate_budget_status`. -/
theorem C3_remaining_plus_spent_eq_amount (txns : List Transaction)
    (b : Budget) :
    (calculate_budget_status txns b).remaining_amount +
      (calculate_budget_status txns b).spent_amount =
      (calculate_budget_status txns b).budget_amount := by
  show b.amount - spentAmount txns b + spentAmount txns b = b.amount
  ring

/-- C4: a budget with amount 0 yields `percentage_used = 0` and status
`under_budget`; the percentage guard takes the `else 0` branch, so the
division is never evaluated. -/
theorem C4_zero_amount_budget (txns : List Transaction) (b : Budget)
    (h : b.amount = 0) :
    (calculate_budget_status txns b).percentage_used = 0 ∧
    (calculate_budget_status txns b).status =
      BudgetStatusKind.under_budget := by
  have hp : percentageRaw (spentAmount txns b) b.amount = 0 := by
    unfold percentageRaw
    rw [h]
    simp
  refine ⟨?_, ?_⟩
  · show round2 (percentageRaw (spentAmount txns b) b.amount) = 0
    rw [hp, round2_eq 0 0 (by norm_num) (by norm_num)]
    norm_num
  · show statusOf (percentageRaw (spentAmount txns b) b.amount) =
      BudgetStatusKind.under_budget
    rw [hp]
    unfold statusOf
    norm_num

/-- C4 witness: the zero-amount theorem applied to a concrete zero budget. -/
theorem C4_zero_amount_budget_witness :
    exBudgetZero.amount = 0 ∧
    ((calculate_budget_status [exTxn150] exBudgetZero).percentage_used = 0 ∧
      (calculate_budget_status [exTxn150] exBudgetZero).status =
        BudgetStatusKind.under_budget) :=
  ⟨rfl, C4_zero_amount_budget [exTxn150] exBudgetZero rfl⟩

/-- C5: for every well-formed expense candidate (type expense; category,
date, nonzero amount present) whose `(owner, category, first-of-month(date))`
budget exists, `check_transaction_impact_on_budget` simulates
`new_spent = committed spend + amount`, `new_remaining = amount - new_spent`,
`new_percentage` by the same formula as `calculate_budget_status`, the new
alert level by the same `≥100 / ≥80 / otherwise` tiering, and
`status_changed` exactly when the alert levels differ. -/
theorem C5_impact_simulation (budgets : List Budget)
    (txns : List Transaction) (user : Nat) (t : TxnCandidate) (c : Nat)
    (d : Date) (a : ℚ) (b : Budget)
    (htype : t.transaction_type = some TransactionType.expense)
    (hc : t.category = some c) (hd : t.date = some d)
    (ha : t.amount = some a) (ha0 : a ≠ 0)
    (hb : findBudget budgets user c (monthStart d) = some b) :
    check_transaction_impact_on_budget budgets txns user t =
      ImpactResult.impact b.id b.category.name
        (spentAmount txns b) (spentAmount txns b + a)
        (b.amount - spentAmount txns b)
        (b.amount - (spentAmount txns b + a))
        (round2 (exactPercentage txns b))
        (round2 (percentageRaw (spentAmount txns b + a) b.amount))
        (decide (alertOf (exactPercentage txns b) ≠
          alertOf (percentageRaw (spentAmount txns b + a) b.amount)))
        (alertOf (exactPercentage txns b))
        (alertOf (percentageRaw (spentAmount txns b + a) b.amount))
        b.amount := by
  rw [check_transaction_impact_on_budget, htype, hc, hd, ha]
  simp [ha0, hb]
  exact ⟨rfl, rfl, rfl, rfl, rfl, Iff.rfl, rfl, rfl⟩

/-- C5 witness: a candidate expense of 450.00 against the 500.00 budget with
no prior spend yields new_percentage 90, old alert none, new alert warning,
and status_changed true. -/
theorem C5_impact_simulation_witness :
    check_transaction_impact_on_budget [exBudget500] [] 1 exCandidate =
      ImpactResult.impact 11 "Misc" 0 450 500 50 0 90 true
        AlertLevel.none_ AlertLevel.warning 500 := by
  have hs : spentAmount ([] : List Transaction) exBudget500 = 0 := rfl
  have hp0 : exactPercentage [] exBudget500 = 0 := by
    rw [exactPercentage, hs]
    show percentageRaw 0 500 = 0
    rw [percentageRaw, if_pos (by norm_num)]
    norm_num
  have hp9 : percentageRaw (spentAmount [] exBudget500 + 450)
      exBudget500.amount = 90 := by
    rw [hs]
    show percentageRaw (0 + 450) 500 = 90
    rw [percentageRaw, if_pos (by norm_num)]
    norm_num
  have h := C5_impact_simulation [exBudget500] [] 1 exCandidate
    exCategory.id ⟨2024, 3, 15⟩ 450 exBudget500 rfl rfl rfl rfl
    (by norm_num) (by decide)
  rw [h, hp0, hp9]
  have hr0 : round2 (0 : ℚ) = 0 := by
    rw [round2_eq 0 0 (by norm_num) (by norm_num)]
    norm_num
  have hr9 : round2 (90 : ℚ) = 90 := by
    rw [round2_eq 90 9000 (by norm_num) (by norm_num)]
    norm_num
  have ha0 : alertOf 0 = AlertLevel.none_ := by
    rw [alertOf, if_neg (by norm_num), if_neg (by norm_num)]
  have ha9 : alertOf 90 = AlertLevel.warning := by
    rw [alertOf, if_neg (by norm_num), if_pos (by norm_num)]
  rw [hr0, hr9, ha0, ha9, hs]
  norm_num [exBudget500, exCategory]
  decide

/-- C6: whenever the candidate's type is not expense, or its category, date,
or amount is missing, or no budget exists for
`(owner, category, first-of-month(date))`,
`check_transaction_impact_on_budget` returns a no-impact result: an early
`noImpact` message record carrying no simulated fields. -/
theorem C6_no_impact_cases (budgets : List Budget) (txns : List Transaction)
    (user : Nat) (t : TxnCandidate)
    (h : t.transaction_type ≠ some TransactionType.expense ∨
      t.category = none ∨ t.date = none ∨ t.amount = none ∨
      (∀ c d, t.category = some c → t.date = some d →
        findBudget budgets user c (monthStart d) = none)) :
    (check_transaction_impact_on_budget budgets txns user t).has_impact =
      false ∧
    ∃ msg, check_transaction_impact_on_budget budgets txns user t =
      ImpactResult.noImpact msg := by
  suffices hs : ∃ msg, check_transaction_impact_on_budget budgets txns user
      t = ImpactResult.noImpact msg by
    obtain ⟨msg, hm⟩ := hs
    exact ⟨by rw [hm]; rfl, ⟨msg, hm⟩⟩
  by_cases hty : t.transaction_type = some TransactionType.expense
  · rcases hcat : t.category with _ | c
    · exact ⟨"Missing required transaction data", by
        rw [check_transaction_impact_on_budget, hty, hcat]; simp⟩
    · rcases hdate : t.date with _ | d
      · exact ⟨"Missing required transaction data", by
          rw [check_transaction_impact_on_budget, hty, hcat, hdate]; simp⟩
      · rcases hamt : t.amount with _ | a
        · exact ⟨"Missing required transaction data", by
            rw [check_transaction_impact_on_budget, hty, hcat, hdate, hamt]
            simp⟩
        · rcases h with h | h | h | h | h
          · exact absurd hty h
          · exact absurd hcat (by rw [h]; simp)
          · exact absurd hdate (by rw [h]; simp)
          · exact absurd hamt (by rw [h]; simp)
          · have hfind := h c d hcat hdate
            by_cases ha0 : a = 0
            · exact ⟨"Missing required transaction data", by
                rw [check_transaction_impact_on_budget, hty, hcat, hdate,
                  hamt]
                simp [ha0]⟩
            · exact ⟨"No budget found for this category and month", by
                rw [check_transaction_impact_on_budget, hty, hcat, hdate,
                  hamt]
                simp [ha0, hfind]⟩
  · exact ⟨"Transaction is not an expense", by
      rw [check_transaction_impact_on_budget, if_pos hty]⟩

/-- C6 witness: a concrete income candidate yields `has_impact = false`. -/
theorem C6_no_impact_cases_witness :
    (check_transaction_impact_on_budget [exBudget500] [exTxn150] 1
      exCandIncome).has_impact = false :=
  (C6_no_impact_cases [exBudget500] [exTxn150] 1 exCandIncome
    (Or.inl (by decide))).1

/-- C8: `get_budget_alerts` emits an alert for exactly the owner's budgets
of the month whose computed alert level is warning or danger, and an
emitted alert is of type `limit_exceeded` exactly when the budget's status
is `over_budget` (else `approaching_limit`). -/
theorem C8_alerts_characterization (budgets : List Budget)
    (txns : List Transaction) (user : Nat) (month : Date)
    (a : BudgetAlert) :
    (a ∈ get_budget_alerts budgets txns user month ↔
      ∃ b ∈ budgets, b.owner = user ∧ b.month = month ∧
        ((calculate_budget_status txns b).alert_level = AlertLevel.warning ∨
          (calculate_budget_status txns b).alert_level =
            AlertLevel.danger) ∧
        a = mkBudgetAlert txns b) ∧
    (∀ b : Budget, (mkBudgetAlert txns b).alert_type =
        AlertType.limit_exceeded ↔
      (calculate_budget_status txns b).status =
        BudgetStatusKind.over_budget) := by
  constructor
  · rw [get_budget_alerts]
    simp only [List.mem_filterMap, List.mem_filter]
    constructor
    · rintro ⟨b, ⟨hmem, hcond⟩, hemit⟩
      rw [Bool.and_eq_true, beq_iff_eq, decide_eq_true_eq] at hcond
      by_cases halert : (calculate_budget_status txns b).alert_level =
          AlertLevel.warning ∨
          (calculate_budget_status txns b).alert_level = AlertLevel.danger
      · rw [if_pos halert] at hemit
        exact ⟨b, hmem, hcond.1, hcond.2, halert, (Option.some_inj.mp
          hemit).symm⟩
      · rw [if_neg halert] at hemit
        exact absurd hemit (by simp)
    · rintro ⟨b, hmem, howner, hmonth, halert, ha⟩
      exact ⟨b, ⟨hmem, by rw [Bool.and_eq_true, beq_iff_eq,
        decide_eq_true_eq]; exact ⟨howner, hmonth⟩⟩,
        by rw [if_pos halert, ha]⟩
  · intro b
    rw [mkBudgetAlert]
    by_cases hst : (calculate_budget_status txns b).status =
        BudgetStatusKind.over_budget
    · simp [hst]
    · simp only [if_neg hst]
      simp [hst]

lemma addScore_ne_nil (acc : List (Category × ℚ)) (c : Category) (s : ℚ) :
    addScore acc c s ≠ [] := by
  cases acc with
  | nil => simp [addScore]
  | cons p rest =>
    rw [addScore]
    split <;> simp

lemma historyStep_ne_nil (dl : String) (acc : List (Category × ℚ))
    (t : Transaction) (h : acc ≠ []) : historyStep dl acc t ≠ [] := by
  rw [historyStep]
  cases t.category with
  | none => exact h
  | some c =>
    by_cases hs : 3 / 10 < descSimilarity dl t.description
    · show (if 3 / 10 < descSimilarity dl t.description then
        addScore acc c (descSimilarity dl t.description) else acc) ≠ []
      rw [if_pos hs]
      exact addScore_ne_nil acc c _
    · show (if 3 / 10 < descSimilarity dl t.description then
        addScore acc c (descSimilarity dl t.description) else acc) ≠ []
      rw [if_neg hs]
      exact h

lemma foldl_historyStep_ne_nil (dl : String) (l : List Transaction)
    (acc : List (Category × ℚ)) (h : acc ≠ []) :
    l.foldl (historyStep dl) acc ≠ [] := by
  induction l generalizing acc with
  | nil => exact h
  | cons t ts ih =>
    rw [List.foldl_cons]
    exact ih _ (historyStep_ne_nil dl acc t h)

lemma foldl_historyStep_nil_iff (dl : String) (l : List Transaction) :
    l.foldl (historyStep dl) [] = [] ↔
      ∀ t ∈ l, historyStep dl [] t = [] := by
  induction l with
  | nil => simp
  | cons t ts ih =>
    rw [List.foldl_cons]
    by_cases h : historyStep dl [] t = []
    · rw [h, ih]
      simp [h]
    · constructor
      · intro hfold
        exact absurd hfold (foldl_historyStep_ne_nil dl ts _ h)
      · intro hall
        exact absurd (hall t (by simp)) h

lemma historyStep_nil_eq_nil_iff (dl : String) (t : Transaction) :
    historyStep dl [] t = [] ↔
      ∀ c : Category, t.category = some c →
        descSimilarity dl t.description ≤ 3 / 10 := by
  cases hc : t.category with
  | none => simp [historyStep, hc]
  | some c =>
    by_cases hs : 3 / 10 < descSimilarity dl t.description
    · simp only [historyStep, hc, if_pos hs]
      constructor
      · intro h
        exact absurd h (addScore_ne_nil [] c _)
      · intro h
        exact absurd hs (not_lt.mpr (h c rfl))
    · simp only [historyStep, hc, if_neg hs]
      simp only [true_iff]
      intro c' hc'
      cases hc'
      exact not_lt.mp hs

lemma argmaxFirst_eq_none_iff (l : List (Category × ℚ)) :
    argmaxFirst l = none ↔ l = [] := by
  cases l <;> simp [argmaxFirst]

lemma argmaxAux_mem (best : Category × ℚ) (l : List (Category × ℚ)) :
    argmaxAux best l = best ∨ argmaxAux best l ∈ l := by
  induction l generalizing best with
  | nil => simp [argmaxAux]
  | cons p rest ih =>
    rw [argmaxAux]
    split
    · rcases ih p with h | h
      · exact Or.inr (by simp [h])
      · exact Or.inr (by simp [h])
    · rcases ih best with h | h
      · exact Or.inl h
      · exact Or.inr (by simp [h])

lemma argmaxAux_ge (best : Category × ℚ) (l : List (Category × ℚ)) :
    best.2 ≤ (argmaxAux best l).2 ∧
      ∀ p ∈ l, p.2 ≤ (argmaxAux best l).2 := by
  induction l generalizing best with
  | nil => simp [argmaxAux]
  | cons p rest ih =>
    rw [argmaxAux]
    split
    · rename_i hlt
      obtain ⟨h1, h2⟩ := ih p
      refine ⟨le_trans (le_of_lt hlt) h1, ?_⟩
      intro q hq
      rcases List.mem_cons.mp hq with hq | hq
      · rw [hq]; exact h1
      · exact h2 q hq
    · rename_i hnlt
      obtain ⟨h1, h2⟩ := ih best
      refine ⟨h1, ?_⟩
      intro q hq
      rcases List.mem_cons.mp hq with hq | hq
      · rw [hq]; exact le_trans (not_lt.mp hnlt) h1
      · exact h2 q hq

lemma argmaxFirst_spec (l : List (Category × ℚ)) (c : Category)
    (h : argmaxFirst l = some c) :
    ∃ s : ℚ, (c, s) ∈ l ∧ ∀ p ∈ l, p.2 ≤ s := by
  cases l with
  | nil => exact absurd h (by simp [argmaxFirst])
  | cons p rest =>
    rw [argmaxFirst, Option.some_inj] at h
    refine ⟨(argmaxAux p rest).2, ?_, ?_⟩
    · have hmem := argmaxAux_mem p rest
      have : (c, (argmaxAux p rest).2) = argmaxAux p rest := by
        rw [← h]
      rw [this]
      rcases hmem with hm | hm
      · simp [hm]
      · simp [hm]
    · intro q hq
      obtain ⟨h1, h2⟩ := argmaxAux_ge p rest
      rcases List.mem_cons.mp hq with hq | hq
      · rw [hq]; exact h1
      · exact h2 q hq

/-- C7 (counterexample): with the single category "Misc" (no keyword
match) and the historical transaction "coffee" in it, the code's
whitespace-split similarity scores the new description "coffee," at 0
(token "coffee," ≠ "coffee") and suggests nothing, while the claim's
regex-based word extraction scores it at 1 and returns the category. -/
theorem C7_split_vs_regex_counterexample :
    suggest_category_with_history [exCategory] [exTxnCoffee] 1 "coffee," =
      none ∧
    suggestWithHistorySpec [exCategory] [exTxnCoffee] 1 "coffee," =
      some exCategory := by
  have hsug : suggest_category [exCategory] "coffee," = none := by decide
  have hsim0 : descSimilarity (strLower "coffee,") "coffee" = 0 := by
    rw [descSimilarity]
    rw [if_neg (by decide)]
    rw [if_neg (by decide)]
    rw [show (((pyWords (strLower (strLower "coffee,"))).toFinset ∩
      (pyWords (strLower "coffee")).toFinset).card) = 0 from by decide]
    simp
  have hsim1 : descSimilaritySpec (strLower "coffee,") "coffee" = 1 := by
    rw [descSimilaritySpec]
    rw [if_neg (by decide)]
    rw [if_neg (by decide)]
    rw [show (((wordRuns (strLower (strLower "coffee,"))).toFinset ∩
      (wordRuns (strLower "coffee")).toFinset).card) = 1 from by decide]
    rw [show (((wordRuns (strLower (strLower "coffee,"))).toFinset ∪
      (wordRuns (strLower "coffee")).toFinset).card) = 1 from by decide]
    norm_num
  constructor
  · rw [suggest_category_with_history, hsug]
    show argmaxFirst
      (List.foldl (historyStep (strLower "coffee,")) [] [exTxnCoffee]) =
      none
    rw [List.foldl_cons, List.foldl_nil]
    rw [show historyStep (strLower "coffee,") [] exTxnCoffee = [] from by
      rw [historyStep]
      show (if 3 / 10 < descSimilarity (strLower "coffee,") "coffee" then
        addScore [] exCategory
          (descSimilarity (strLower "coffee,") "coffee") else []) = []
      rw [hsim0, if_neg (by norm_num)]]
    rfl
  · rw [suggestWithHistorySpec, hsug]
    show argmaxFirst
      (List.foldl (historyStepSpec (strLower "coffee,")) [] [exTxnCoffee]) =
      some exCategory
    rw [List.foldl_cons, List.foldl_nil]
    rw [show historyStepSpec (strLower "coffee,") [] exTxnCoffee =
        [(exCategory, 1)] from by
      rw [historyStepSpec]
      show (if 3 / 10 < descSimilaritySpec (strLower "coffee,") "coffee" then
        addScore [] exCategory
          (descSimilaritySpec (strLower "coffee,") "coffee") else []) =
        [(exCategory, 1)]
      rw [hsim1, if_pos (by norm_num)]
      rfl]
    rfl

/-- C7 (amended): when the keyword pass yields nothing,
`suggest_category_with_history` accumulates, per category, the
whitespace-split lowercase word-set Jaccard similarities strictly above
0.3 of the owner's categorized historical transactions (punctuation is
retained inside tokens — no word-character regex), returns a category of
maximal accumulated score, and returns `none` exactly when no historical
transaction clears the threshold. -/
theorem C7_history_threshold_and_argmax (cats : List Category)
    (txns : List Transaction) (user : Nat) (d : String)
    (hnone : suggest_category cats d = none) :
    (suggest_category_with_history cats txns user d = none ↔
      ∀ t ∈ txns, t.owner = user → ∀ c : Category, t.category = some c →
        descSimilarity (strLower d) t.description ≤ 3 / 10) ∧
    (∀ c : Category, suggest_category_with_history cats txns user d =
        some c →
      ∃ s : ℚ,
        (c, s) ∈ (txns.filter
          (fun t => t.owner == user && t.category.isSome)).foldl
            (historyStep (strLower d)) [] ∧
        ∀ p ∈ (txns.filter
          (fun t => t.owner == user && t.category.isSome)).foldl
            (historyStep (strLower d)) [], p.2 ≤ s) := by
  have hbody : suggest_category_with_history cats txns user d =
      argmaxFirst ((txns.filter
        (fun t => t.owner == user && t.category.isSome)).foldl
          (historyStep (strLower d)) []) := by
    rw [suggest_category_with_history, hnone]
  constructor
  · rw [hbody, argmaxFirst_eq_none_iff, foldl_historyStep_nil_iff]
    constructor
    · intro h t ht howner c hc
      have hmem : t ∈ txns.filter
          (fun t => t.owner == user && t.category.isSome) := by
        rw [List.mem_filter]
        exact ⟨ht, by rw [howner, hc]; simp⟩
      have := (historyStep_nil_eq_nil_iff (strLower d) t).mp (h t hmem)
      exact this c hc
    · intro h t ht
      obtain ⟨ht', hpred⟩ := List.mem_filter.mp ht
      rw [Bool.and_eq_true, beq_iff_eq] at hpred
      rw [historyStep_nil_eq_nil_iff]
      intro c hc
      exact h t ht' hpred.1 c hc
  · intro c hc
    rw [hbody] at hc
    exact argmaxFirst_spec _ c hc

/-- C7 witness: the amended theorem applied to the concrete "coffee,"
query, whose only historical transaction does not clear the threshold
under the code's split-based similarity. -/
theorem C7_history_threshold_and_argmax_witness :
    suggest_category [exCategory] "coffee," = none ∧
    (suggest_category_with_history [exCategory] [exTxnCoffee] 1 "coffee," =
        none ↔
      ∀ t ∈ [exTxnCoffee], t.owner = 1 → ∀ c : Category,
        t.category = some c →
        descSimilarity (strLower "coffee,") t.description ≤ 3 / 10) :=
  ⟨by decide,
   (C7_history_threshold_and_argmax [exCategory] [exTxnCoffee] 1 "coffee,"
      (by decide)).1⟩

/-- C9: `suggest_category` depends on the description only through its
lowercasing (and its character count, for the emptiness guard), so any two
descriptions differing only in letter case yield the same suggestion. -/
theorem C9_case_invariance (cats : List Category) (d1 d2 : String)
    (h : strLower d1 = strLower d2) :
    suggest_category cats d1 = suggest_category cats d2 := by
  have hdata : d1.data.map Char.toLower = d2.data.map Char.toLower :=
    congrArg String.data h
  have hlen : d1.data.length = d2.data.length := by
    rw [← List.length_map d1.data Char.toLower,
      ← List.length_map d2.data Char.toLower, hdata]
  by_cases he : d1.data = []
  · have he2 : d2.data = [] := by
      rw [he] at hlen
      exact List.eq_nil_of_length_eq_zero hlen.symm
    rw [suggest_category, suggest_category]
    simp [he, he2]
  · have he2 : d2.data ≠ [] := by
      intro hnil
      rw [hnil] at hlen
      exact he (List.eq_nil_of_length_eq_zero hlen)
    rw [suggest_category, suggest_category]
    rw [if_neg (by simp [he]), if_neg (by simp [he2]), h]

/-- C9 witness: the concrete pair "WALMART GROCERY" / "walmart grocery"
against the Groceries category. -/
theorem C9_case_invariance_witness :
    suggest_category [exCatGroceries] "WALMART GROCERY" =
      suggest_category [exCatGroceries] "walmart grocery" :=
  C9_case_invariance [exCatGroceries] _ _ (by decide)

/-- C10: an empty description short-circuits `suggest_category` to `None`
before any category is scored. -/
theorem C10_empty_description (cats : List Category) :
    suggest_category cats "" = none := rfl

end Personify
